import Mathlib

/-
Verification of the alantern chat server (src/main.go) against its design
specification.  The Go source is shallowly embedded: the global maps become
association lists with Go-map semantics (unique keys, zero-value defaults),
time.Time becomes an integer count of milliseconds, channels become numeric
handles, and each HTTP handler becomes a pure function from the relevant
state to the new state plus the list of messages it enqueues.  A Go panic is
modelled as a distinguished result constructor (`none` / `IdResult.panicked`).
-/

namespace Alantern

/-! ## Association-list maps (Go `map[string]V` semantics) -/

/-- Lookup in an association list, mirroring a Go map read with `ok`. -/
def mapLookup {α : Type} (m : List (String × α)) (k : String) : Option α :=
  match m with
  | [] => none
  | p :: rest => if p.1 = k then some p.2 else mapLookup rest k

/-- Go map read without `ok`: absent keys yield the zero value `d`. -/
def mapGetD {α : Type} (m : List (String × α)) (k : String) (d : α) : α :=
  (mapLookup m k).getD d

/-- Go map assignment `m[k] = v`: replace the binding if present, else append. -/
def mapInsert {α : Type} (m : List (String × α)) (k : String) (v : α) : List (String × α) :=
  match m with
  | [] => [(k, v)]
  | p :: rest => if p.1 = k then (k, v) :: rest else p :: mapInsert rest k v

/-- Go `delete(m, k)`: remove every binding of `k`. -/
def mapErase {α : Type} (m : List (String × α)) (k : String) : List (String × α) :=
  match m with
  | [] => []
  | p :: rest => if p.1 = k then mapErase rest k else p :: mapErase rest k

/-! ## Go string primitives used by the server -/

/-- Worker for `strings.Split(s, " ")`: accumulate the current field (reversed)
and cut at every space, preserving empty fields exactly as Go does. -/
def splitSpaceChars : List Char → List Char → List String
  | acc, [] => [String.mk acc.reverse]
  | acc, c :: cs =>
    if c = ' ' then String.mk acc.reverse :: splitSpaceChars [] cs
    else splitSpaceChars (c :: acc) cs

/-- Go `strings.Split(message, " ")`. -/
def stringsSplitSpace (s : String) : List String :=
  splitSpaceChars [] s.data

/-- Go `strings.Join(parts, sep)`. -/
def goJoin (sep : String) : List String → String
  | [] => ""
  | [x] => x
  | x :: xs => x ++ sep ++ goJoin sep xs

/-- Go `strings.ToLower` (character-wise lowering suffices for the server's
ASCII command names and color names). -/
def goToLower (s : String) : String :=
  String.mk (s.data.map Char.toLower)

/-- Go `strings.Contains(s, string(c))` for the single-character needle used by
the nickname validation. -/
def goContainsChar (s : String) (c : Char) : Bool :=
  s.data.contains c

/-- Whether `l` starts with the pattern `pat`. -/
def listHasPre : List Char → List Char → Bool
  | [], _ => true
  | _ :: _, [] => false
  | a :: as, b :: bs => a == b && listHasPre as bs

/-- Go `strings.HasPrefix(s, pat)`. -/
def goHasPre (s pat : String) : Bool :=
  listHasPre pat.data s.data

/-- Whether `pat` occurs contiguously inside the second list. -/
def listContainsSub (pat : List Char) : List Char → Bool
  | [] => listHasPre pat []
  | c :: rest => listHasPre pat (c :: rest) || listContainsSub pat rest

/-- Whether the string `pat` occurs contiguously inside `s`
(Go `strings.Contains(s, pat)`). -/
def strContainsSub (s pat : String) : Bool :=
  listContainsSub pat.data s.data

/-- Go `len(s)` counts UTF-8 bytes. -/
def goLen (s : String) : Nat :=
  s.data.foldl (fun n c => n + c.utf8Size) 0

/-! ## RateLimiter (inlined in `handleSendMessage`, src/main.go lines 462-480) -/

/-- Result of the spam gate at the top of `handleSendMessage`: `Throttle` is the
early return that sends the spam warning, `Allow` is falling through to the
message-processing code. -/
inductive Decision where
  | Allow
  | Throttle
deriving DecidableEq

/-- The two global maps read and written by the spam gate:
`lastMessageTime map[string]time.Time` and `spamCount map[string]int`.
Times are in milliseconds. -/
structure RLState where
  lastMessageTime : List (String × Int)
  spamCount : List (String × Int)
deriving DecidableEq

/-- The rate-limit gate of `handleSendMessage` (src/main.go lines 462-480):
if a previous message exists and arrived less than 2 seconds ago, increment
`spamCount`; once it reaches 5, return early (Throttle) without touching
`lastMessageTime`; otherwise the message is allowed, with `spamCount` reset
to 0 on the out-of-window (or first-message) path and `lastMessageTime` set
to `now`. -/
def rateLimitAdmit (st : RLState) (sessionID : String) (now : Int) : Decision × RLState :=
  match mapLookup st.lastMessageTime sessionID with
  | some lastTime =>
    if now - lastTime < 2000 then
      let spam := mapGetD st.spamCount sessionID 0 + 1
      if spam ≥ 5 then
        (Decision.Throttle, { st with spamCount := mapInsert st.spamCount sessionID spam })
      else
        (Decision.Allow,
         { lastMessageTime := mapInsert st.lastMessageTime sessionID now,
           spamCount := mapInsert st.spamCount sessionID spam })
    else
      (Decision.Allow,
       { lastMessageTime := mapInsert st.lastMessageTime sessionID now,
         spamCount := mapInsert st.spamCount sessionID 0 })
  | none =>
    (Decision.Allow,
     { lastMessageTime := mapInsert st.lastMessageTime sessionID now,
       spamCount := mapInsert st.spamCount sessionID 0 })

/-- Run the gate over a sequence of submission times for a fixed session. -/
def admitRun (st : RLState) (sessionID : String) (times : List Int) : List Decision × RLState :=
  match times with
  | [] => ([], st)
  | t :: ts =>
    let r := rateLimitAdmit st sessionID t
    let rest := admitRun r.2 sessionID ts
    (r.1 :: rest.1, rest.2)

/-! ## Sessions: nicknames and colors -/

/-- `getNickname` (src/main.go lines 747-754). -/
def getNickname (nicknames : List (String × String)) (sessionID : String) : String :=
  match mapLookup nicknames sessionID with
  | some nickname => nickname
  | none => "anonymous"

/-- Outcome of `handleSetNickname`: an HTTP 400 error, or a 200 response body
plus the broadcast announcing the change. -/
inductive SetNickResult where
  | badRequest (body : String)
  | ok (response broadcastText : String)
deriving DecidableEq

/-- `handleSetNickname` (src/main.go lines 756-779): reject empty nicknames and
nicknames containing a space; otherwise record the nickname, announce the
change to everyone (embedding the session id) and confirm to the caller.
Returns the updated `nicknames` map and the outcome. -/
def handleSetNickname (nicknames : List (String × String)) (sessionID nickname : String) :
    List (String × String) × SetNickResult :=
  if nickname == "" || goContainsChar nickname ' ' then
    (nicknames, SetNickResult.badRequest "Invalid nickname: either empty or contains spaces")
  else
    let old := mapGetD nicknames sessionID ""
    let nicknames' := mapInsert nicknames sessionID nickname
    let oldText := if old == "" then "no previous nicknames" else "previously [" ++ old ++ "]"
    (nicknames',
     SetNickResult.ok ("Nickname set to " ++ nickname ++ " for session " ++ sessionID)
       ("{app}: client " ++ sessionID ++ " (" ++ oldText ++ ") changed nickname to [" ++
         nickname ++ "]"))

/-! ## Broadcaster (the `clients` map, `broadcastMessage`, `sendPrivateMessage`) -/

/-- `broadcastMessage` (src/main.go lines 781-790): enqueue the message on every
registered channel.  Channels are numeric handles; the result is the list of
(channel, text) deliveries dispatched. -/
def broadcastMessage (clients : List (String × Nat)) (message : String) : List (Nat × String) :=
  clients.map (fun p => (p.2, message))

/-- `sendPrivateMessage` (src/main.go lines 792-801): deliver only to the
channel registered under `sessionID`, prefixed with the `@private ` tag;
silently nothing if the session has no live channel. -/
def sendPrivateMessage (clients : List (String × Nat)) (sessionID message : String) :
    List (Nat × String) :=
  match mapLookup clients sessionID with
  | some ch => [(ch, "@private " ++ message)]
  | none => []

/-! ## CommandProcessor (`handleCommand`, src/main.go lines 502-714) -/

/-- The `predefinedColors` literal of the `;color` branch
(src/main.go lines 515-672). -/
def predefinedColors : List (String × String) :=
  [("red", "#ff0000"), ("lightred", "#ff6666"), ("darkred", "#8b0000"),
   ("blue", "#0000ff"), ("lightblue", "#add8e6"), ("darkblue", "#00008b"),
   ("green", "#008000"), ("lightgreen", "#90ee90"), ("darkgreen", "#006400"),
   ("yellow", "#ffff00"), ("lightyellow", "#ffffe0"), ("darkyellow", "#9b870c"),
   ("purple", "#800080"), ("lightpurple", "#dda0dd"), ("darkpurple", "#4b0082"),
   ("orange", "#ffa500"), ("lightorange", "#ffcc99"), ("darkorange", "#ff8c00"),
   ("pink", "#ffc0cb"), ("lightpink", "#ffb6c1"), ("darkpink", "#c71585"),
   ("cyan", "#00ffff"), ("lightcyan", "#e0ffff"), ("darkcyan", "#008b8b"),
   ("brown", "#a52a2a"), ("lightbrown", "#deb887"), ("darkbrown", "#654321"),
   ("black", "#000000"), ("lightblack", "#696969"), ("darkblack", "#0a0a0a"),
   ("white", "#ffffff"), ("lightwhite", "#f5f5f5"), ("darkwhite", "#dcdcdc"),
   ("gray", "#808080"), ("lightgray", "#d3d3d3"), ("darkgray", "#505050"),
   ("gold", "#ffd700"), ("lightgold", "#ffec8b"), ("darkgold", "#b8860b"),
   ("silver", "#c0c0c0"), ("lightsilver", "#e6e6e6"), ("darksilver", "#a9a9a9"),
   ("navy", "#000080"), ("lightnavy", "#4682b4"), ("darknavy", "#00004d"),
   ("lime", "#00ff00"), ("lightlime", "#bfff00"), ("darklime", "#32cd32"),
   ("magenta", "#ff00ff"), ("lightmagenta", "#ff77ff"), ("darkmagenta", "#8b008b"),
   ("beige", "#f5f5dc"), ("lightbeige", "#faf0e6"), ("darkbeige", "#d2b48c"),
   ("olive", "#808000"), ("lightolive", "#b5b35c"), ("darkolive", "#556b2f"),
   ("maroon", "#800000"), ("lightmaroon", "#b03060"), ("darkmaroon", "#5c0000"),
   ("violet", "#ee82ee"), ("lightviolet", "#f3e5ab"), ("darkviolet", "#9400d3"),
   ("indigo", "#4b0082"), ("lightindigo", "#7a5c99"), ("darkindigo", "#310062"),
   ("turquoise", "#40e0d0"), ("lightturquoise", "#afeeee"), ("darkturquoise", "#00ced1"),
   ("chocolate", "#d2691e"), ("lightchocolate", "#e6b8a2"), ("darkchocolate", "#8b4513"),
   ("coral", "#ff7f50"), ("lightcoral", "#f08080"), ("darkcoral", "#cd5b45"),
   ("salmon", "#fa8072"), ("lightsalmon", "#ffa07a"), ("darksalmon", "#e9967a"),
   ("khaki", "#f0e68c"), ("lightkhaki", "#fffacd"), ("darkkhaki", "#bdb76b"),
   ("orchid", "#da70d6"), ("lightorchid", "#e6a8d7"), ("darkorchid", "#9932cc"),
   ("plum", "#dda0dd"), ("lightplum", "#e6b8e6"), ("darkplum", "#8e4585"),
   ("tan", "#d2b48c"), ("lighttan", "#f5deb3"), ("darktan", "#a0522d"),
   ("lavender", "#e6e6fa"), ("lightlavender", "#f3e5f5"), ("darklavender", "#7c7c99"),
   ("peach", "#ffdab9"), ("lightpeach", "#ffefd5"), ("darkpeach", "#cd853f"),
   ("mint", "#98ff98"), ("lightmint", "#bdfcc9"), ("darkmint", "#3cb371"),
   ("aqua", "#00ffff"), ("lightaqua", "#e0ffff"), ("darkaqua", "#008b8b"),
   ("skyblue", "#87ceeb"), ("lightskyblue", "#b0e2ff"), ("darkskyblue", "#4682b4"),
   ("crimson", "#dc143c"), ("lightcrimson", "#ff6f61"), ("darkcrimson", "#8b0000"),
   ("goldenrod", "#daa520"), ("lightgoldenrod", "#ffec8b"), ("darkgoldenrod", "#b8860b"),
   ("seagreen", "#2e8b57"), ("lightseagreen", "#54ff9f"), ("darkseagreen", "#8fbc8f"),
   ("slateblue", "#6a5acd"), ("lightslateblue", "#8470ff"), ("darkslateblue", "#483d8b"),
   ("steelblue", "#4682b4"), ("lightsteelblue", "#b0c4de"), ("darksteelblue", "#2a4f7c"),
   ("tomato", "#ff6347"), ("lighttomato", "#ff7f50"), ("darktomato", "#cd5b45"),
   ("wheat", "#f5deb3"), ("lightwheat", "#ffe4b5"), ("darkwheat", "#d2b48c"),
   ("azure", "#f0ffff"), ("lightazure", "#e0ffff"), ("darkazure", "#b0e0e6"),
   ("ivory", "#fffff0"), ("lightivory", "#f5f5dc"), ("darkivory", "#dcdcdc"),
   ("lavenderblush", "#fff0f5"), ("lightlavenderblush", "#ffe4e1"),
   ("darklavenderblush", "#d8bfd8"),
   ("mistyrose", "#ffe4e1"), ("lightmistyrose", "#ffebcd"), ("darkmistyrose", "#cd5b45"),
   ("powderblue", "#b0e0e6"), ("lightpowderblue", "#add8e6"), ("darkpowderblue", "#4682b4"),
   ("rosybrown", "#bc8f8f"), ("lightrosybrown", "#deb887"), ("darkrosybrown", "#8b4513"),
   ("sandybrown", "#f4a460"), ("lightsandybrown", "#ffcc99"), ("darksandybrown", "#cd853f"),
   ("snow", "#fffafa"), ("lightsnow", "#f5f5f5"), ("darksnow", "#dcdcdc"),
   ("thistle", "#d8bfd8"), ("lightthistle", "#e6e6fa"), ("darkthistle", "#7c7c99"),
   ("yellowgreen", "#9acd32"), ("lightyellowgreen", "#adff2f"),
   ("darkyellowgreen", "#556b2f")]

/-- The `;members` reply accumulator (src/main.go lines 687-692):
`members = fmt.Sprintf("%s [%s] (%s)", members, memberSessionID, nickname)`. -/
def membersRender (nicknames : List (String × String)) : String :=
  nicknames.foldl (fun members p => members ++ " [" ++ p.1 ++ "] (" ++ p.2 ++ ")") ""

/-- The shared state read and written by `handleCommand`: the `nicknames` and
`nicknameColors` maps plus the `clients` registry used for replies. -/
structure CmdState where
  nicknames : List (String × String)
  nicknameColors : List (String × String)
  clients : List (String × Nat)
deriving DecidableEq

/-- `handleCommand` (src/main.go lines 502-714).  The result is `none` when the
Go code panics (`;whisper` with no argument indexes `splitted[1]` out of
range), otherwise the updated state plus the list of (channel, text)
deliveries dispatched by `sendPrivateMessage`. -/
def handleCommand (st : CmdState) (sessionID message : String) :
    Option (CmdState × List (Nat × String)) :=
  match stringsSplitSpace message with
  | [] => none
  | first :: _ =>
    match goToLower first with
    | ";help" =>
      some (st, sendPrivateMessage st.clients sessionID
        "{app}: Available commands: ;help, ;members, ;whisper <username> <message>, ;color <hexcode>")
    | ";color" =>
      let splitted := stringsSplitSpace message
      if splitted.length != 2 then
        some (st, sendPrivateMessage st.clients sessionID
          "{app}: Usage: ;color <hexcode|colorname> (e.g., ;color #ff0000 or ;color red)")
      else
        match splitted with
        | _ :: color :: _ =>
          match mapLookup predefinedColors (goToLower color) with
          | some hex =>
            some ({ st with nicknameColors := mapInsert st.nicknameColors sessionID hex },
              sendPrivateMessage st.clients sessionID
                ("{app}: Your nickname color has been changed to " ++ hex))
          | none =>
            if !goHasPre color "#" || goLen color != 7 then
              some (st, sendPrivateMessage st.clients sessionID
                "{app}: Invalid color format. Use hexadecimal format like #ff0000 or predefined names like red")
            else
              some ({ st with nicknameColors := mapInsert st.nicknameColors sessionID color },
                sendPrivateMessage st.clients sessionID
                  ("{app}: Your nickname color has been changed to " ++ color))
        | _ => none
    | ";members" =>
      some (st, sendPrivateMessage st.clients sessionID
        ("{app}: Online members" ++ membersRender st.nicknames))
    | ";whisper" =>
      match stringsSplitSpace message with
      | _ :: toNickname :: rest =>
        let msg := goJoin " " rest
        let toSessionID :=
          st.nicknames.foldl (fun acc p => if p.2 = toNickname then p.1 else acc) ""
        let msgToSend := "(whisper to ~" ++ toNickname ++ ") [" ++
          getNickname st.nicknames sessionID ++ "]: " ++ msg
        some (st, sendPrivateMessage st.clients toSessionID msgToSend ++
          sendPrivateMessage st.clients sessionID msgToSend)
      | _ => none
    | _ =>
      some (st, sendPrivateMessage st.clients sessionID ("{app}: Unknown command: " ++ message))

/-! ## Event-stream registration (`handleEvents`, src/main.go lines 716-745) -/

/-- The channel registry: the `clients` map, a counter minting fresh channel
handles, and the set of channels on which `close` has been called. -/
structure RegState where
  clients : List (String × Nat)
  nextCh : Nat
  closed : List Nat
deriving DecidableEq

/-- The registration step of `handleEvents` (src/main.go lines 721-726):
`msgCh := make(chan string); clients[sessionID] = msgCh`.  Nothing is closed
here; any prior channel for `sessionID` is merely overwritten in the map. -/
def eventsRegister (st : RegState) (sessionID : String) : RegState × Nat :=
  let msgCh := st.nextCh
  ({ clients := mapInsert st.clients sessionID msgCh,
     nextCh := st.nextCh + 1,
     closed := st.closed }, msgCh)

/-- The deferred teardown of a `handleEvents` call (src/main.go lines 728-733):
`delete(clients, sessionID); close(msgCh)`.  Note it deletes whatever entry
currently sits under `sessionID`, not necessarily its own channel. -/
def eventsCleanup (st : RegState) (sessionID : String) (msgCh : Nat) : RegState :=
  { clients := mapErase st.clients sessionID,
    nextCh := st.nextCh,
    closed := msgCh :: st.closed }

/-! ## Id generation (src/main.go lines 803-812 and 429-435) -/

/-- Lowercase hex digit, as produced by Go's `%x`. -/
def hexDigit (n : Nat) : Char :=
  if n < 10 then Char.ofNat (48 + n) else Char.ofNat (87 + n)

/-- Two-digit lowercase hex rendering of one byte. -/
def byteHex (b : Nat) : String :=
  String.mk [hexDigit (b / 16 % 16), hexDigit (b % 16)]

/-- Go `fmt.Sprintf("%x", bytes)`. -/
def bytesHex (bs : List Nat) : String :=
  String.join (bs.map byteHex)

/-- The `base64.URLEncoding` alphabet. -/
def base64URLAlphabet : List Char :=
  "ABCDEFGHIJKLMNOPQRSTUVWXYZabcdefghijklmnopqrstuvwxyz0123456789-_".data

/-- Character for one 6-bit group. -/
def base64Char (n : Nat) : Char :=
  base64URLAlphabet.getD n '='

/-- Encode 3-byte groups into 4 alphabet characters, padding with `=`. -/
def base64URLEncodeChunks : List Nat → List Char
  | [] => []
  | [b0] => [base64Char (b0 / 4), base64Char (b0 % 4 * 16), '=', '=']
  | [b0, b1] => [base64Char (b0 / 4), base64Char (b0 % 4 * 16 + b1 / 16),
                 base64Char (b1 % 16 * 4), '=']
  | b0 :: b1 :: b2 :: rest =>
    base64Char (b0 / 4) :: base64Char (b0 % 4 * 16 + b1 / 16) ::
    base64Char (b1 % 16 * 4 + b2 / 64) :: base64Char (b2 % 64) ::
    base64URLEncodeChunks rest

/-- Go `base64.URLEncoding.EncodeToString`. -/
def base64URLEncode (bs : List Nat) : String :=
  String.mk (base64URLEncodeChunks bs)

/-- Result of an id-generation call.  `panicked` records the broadcast text
emitted just before the Go `panic` plus the panic message. -/
inductive IdResult where
  | ok (id : String)
  | panicked (broadcastText panicMsg : String)
deriving DecidableEq

/-- `generateRandomId` (src/main.go lines 803-812).  The entropy source is a
parameter: `Except.ok r` stands for a successful `rand.Read` filling the four
bytes `r`, `Except.error e` for a failed read with message `e`.  On failure
the Go code broadcasts a PANIC notice and panics. -/
def generateRandomId (nowUnixMilli : Int) (entropy : Except String (List Nat)) : IdResult :=
  match entropy with
  | Except.ok r => IdResult.ok (toString nowUnixMilli ++ "-" ++ bytesHex r)
  | Except.error e =>
    IdResult.panicked "{app}: PANIC, shutting down" ("unable to generate random bytes: " ++ e)

/-- `generateSessionID` (src/main.go lines 429-435): on entropy failure, fall
back to the bare `UnixNano` timestamp; on success, base64url-encode the 32
random bytes.  (This function is defined in the server but no handler calls
it; `getOrCreateSession` uses `generateRandomId` instead.) -/
def generateSessionID (nowUnixNano : Int) (entropy : Except String (List Nat)) : String :=
  match entropy with
  | Except.ok b => base64URLEncode b
  | Except.error _ => toString nowUnixNano

/-- `getOrCreateSession` (src/main.go lines 437-450): return the `session_id`
cookie when the request carries one; otherwise mint an id with
`generateRandomId` and set it as the cookie.  The Bool records whether a
`Set-Cookie` was issued; a panic in `generateRandomId` propagates. -/
def getOrCreateSession (cookie : Option String) (nowUnixMilli : Int)
    (entropy : Except String (List Nat)) : IdResult × Bool :=
  match cookie with
  | some v => (IdResult.ok v, false)
  | none =>
    match generateRandomId nowUnixMilli entropy with
    | IdResult.ok sessionID => (IdResult.ok sessionID, true)
    | IdResult.panicked b p => (IdResult.panicked b p, false)

/-! ## BlobStore (`imageStore`/`imageExpiry` and `startImageCleanup`) -/

/-- The two blob maps: raw bytes and expiry instants (milliseconds). -/
structure BlobState where
  imageStore : List (String × List Nat)
  imageExpiry : List (String × Int)
deriving DecidableEq

/-- One iteration of the cleanup loop body (src/main.go lines 864-869):
`if now.After(expiry) { delete(imageStore, id); delete(imageExpiry, id) }`.
`time.After` is a strict comparison. -/
def sweepStep (now : Int) (st : BlobState) (entry : String × Int) : BlobState :=
  if now > entry.2 then
    { imageStore := mapErase st.imageStore entry.1,
      imageExpiry := mapErase st.imageExpiry entry.1 }
  else st

/-- One firing of the `startImageCleanup` ticker (src/main.go lines 858-873):
range over `imageExpiry` deleting every strictly-expired record from both
maps. -/
def imageCleanupSweep (st : BlobState) (now : Int) : BlobState :=
  st.imageExpiry.foldl (sweepStep now) st

/-- The store read performed by `handleImage` (src/main.go lines 845-856):
`data, ok := imageStore[id]`; `none` renders a 404. -/
def handleImageLookup (st : BlobState) (id : String) : Option (List Nat) :=
  mapLookup st.imageStore id

/-! ## Join / leave announcements (src/main.go lines 875-885) -/

/-- `handleJoin`: broadcast the join announcement, which interpolates the raw
session id followed by the bracketed nickname. -/
def handleJoin (nicknames : List (String × String)) (clients : List (String × Nat))
    (sessionID : String) : List (Nat × String) :=
  broadcastMessage clients
    ("{app}: " ++ sessionID ++ " ([" ++ getNickname nicknames sessionID ++ "]) has joined the room")

/-- `handleLeave`: broadcast the leave announcement, which interpolates the
bracketed nickname followed by the raw session id. -/
def handleLeave (nicknames : List (String × String)) (clients : List (String × Nat))
    (sessionID : String) : List (Nat × String) :=
  broadcastMessage clients
    ("{app}: [" ++ getNickname nicknames sessionID ++ "] (" ++ sessionID ++ ") has left the room")

/-! ## Lemmas about the map model -/

theorem mapGetD_insert_self {α : Type} (m : List (String × α)) (k : String) (v d : α) :
    mapGetD (mapInsert m k v) k d = v := by
  induction m with
  | nil => simp [mapInsert, mapGetD, mapLookup]
  | cons p rest ih =>
    by_cases h : p.1 = k
    · simp [mapInsert, h, mapGetD, mapLookup]
    · simp [mapInsert, h, mapGetD, mapLookup] at ih ⊢
      exact ih

theorem mapLookup_insert_self {α : Type} (m : List (String × α)) (k : String) (v : α) :
    mapLookup (mapInsert m k v) k = some v := by
  induction m with
  | nil => simp [mapInsert, mapLookup]
  | cons p rest ih =>
    by_cases h : p.1 = k
    · simp [mapInsert, h, mapLookup]
    · simp [mapInsert, h, mapLookup]
      exact ih

theorem mapLookup_insert_ne {α : Type} (m : List (String × α)) (k j : String) (v : α)
    (h : j ≠ k) : mapLookup (mapInsert m k v) j = mapLookup m j := by
  have hkj : k ≠ j := Ne.symm h
  induction m with
  | nil => simp [mapInsert, mapLookup, hkj]
  | cons p rest ih =>
    by_cases hp : p.1 = k
    · have hpj : p.1 ≠ j := by rw [hp]; exact hkj
      simp [mapInsert, hp, mapLookup, hkj, hpj]
    · by_cases hj : p.1 = j
      · simp [mapInsert, hp, mapLookup, hj, h]
      · simp [mapInsert, hp, mapLookup, hj, ih]

theorem mapLookup_erase_self {α : Type} (m : List (String × α)) (k : String) :
    mapLookup (mapErase m k) k = none := by
  induction m with
  | nil => simp [mapErase, mapLookup]
  | cons p rest ih =>
    by_cases h : p.1 = k
    · simpa [mapErase, h] using ih
    · simpa [mapErase, h, mapLookup] using ih

theorem mapLookup_erase_ne {α : Type} (m : List (String × α)) (k j : String) (h : j ≠ k) :
    mapLookup (mapErase m k) j = mapLookup m j := by
  induction m with
  | nil => simp [mapErase, mapLookup]
  | cons p rest ih =>
    by_cases hp : p.1 = k
    · have hpj : p.1 ≠ j := by rw [hp]; exact Ne.symm h
      simp [mapErase, hp, mapLookup, hpj, ih, Ne.symm h]
    · by_cases hj : p.1 = j
      · simp [mapErase, hp, mapLookup, hj, h]
      · simp [mapErase, hp, mapLookup, hj, ih]

theorem mapLookup_erase_none {α : Type} (m : List (String × α)) (k j : String)
    (h : mapLookup m j = none) : mapLookup (mapErase m k) j = none := by
  by_cases hjk : j = k
  · rw [hjk]; exact mapLookup_erase_self m k
  · rw [mapLookup_erase_ne m k j hjk]; exact h

/-! ## Lemmas about substring search -/

theorem listHasPre_append (pat t : List Char) : listHasPre pat (pat ++ t) = true := by
  induction pat with
  | nil => simp [listHasPre]
  | cons a as ih => simp [listHasPre, ih]

theorem listHasPre_refl (l : List Char) : listHasPre l l = true := by
  induction l with
  | nil => simp [listHasPre]
  | cons a as ih => simp [listHasPre, ih]

theorem listHasPre_extend (pat l t : List Char) (h : listHasPre pat l = true) :
    listHasPre pat (l ++ t) = true := by
  induction pat generalizing l with
  | nil => simp [listHasPre]
  | cons a as ih =>
    cases l with
    | nil => simp [listHasPre] at h
    | cons b bs =>
      simp [listHasPre] at h ⊢
      exact ⟨h.1, ih bs h.2⟩

theorem listContainsSub_of_hasPre (pat l : List Char) (h : listHasPre pat l = true) :
    listContainsSub pat l = true := by
  cases l with
  | nil => simpa [listContainsSub] using h
  | cons c rest => simp [listContainsSub, h]

theorem listContainsSub_refl (l : List Char) : listContainsSub l l = true :=
  listContainsSub_of_hasPre l l (listHasPre_refl l)

theorem listContainsSub_cons (pat l : List Char) (c : Char)
    (h : listContainsSub pat l = true) : listContainsSub pat (c :: l) = true := by
  simp [listContainsSub, h]

theorem listContainsSub_append_right (pat s t : List Char)
    (h : listContainsSub pat t = true) : listContainsSub pat (s ++ t) = true := by
  induction s with
  | nil => simpa using h
  | cons c cs ih => simpa using listContainsSub_cons pat (cs ++ t) c ih

theorem listContainsSub_append_left (pat s t : List Char)
    (h : listContainsSub pat s = true) : listContainsSub pat (s ++ t) = true := by
  induction s with
  | nil =>
    cases pat with
    | nil => exact listContainsSub_of_hasPre _ _ (by simp [listHasPre])
    | cons a as => simp [listContainsSub, listHasPre] at h
  | cons c cs ih =>
    simp only [listContainsSub, Bool.or_eq_true] at h
    rcases h with h | h
    · exact listContainsSub_of_hasPre _ _ (by simpa using listHasPre_extend pat (c :: cs) t h)
    · simpa using listContainsSub_cons pat (cs ++ t) c (ih h)

theorem string_data_append (s t : String) : (s ++ t).data = s.data ++ t.data := by
  cases s
  cases t
  rfl

theorem strContainsSub_self (pat : String) : strContainsSub pat pat = true :=
  listContainsSub_refl pat.data

theorem strContainsSub_append_left (s t pat : String) (h : strContainsSub s pat = true) :
    strContainsSub (s ++ t) pat = true := by
  unfold strContainsSub at h ⊢
  rw [string_data_append]
  exact listContainsSub_append_left _ _ _ h

theorem strContainsSub_append_right (s t pat : String) (h : strContainsSub t pat = true) :
    strContainsSub (s ++ t) pat = true := by
  unfold strContainsSub at h ⊢
  rw [string_data_append]
  exact listContainsSub_append_right _ _ _ h

/-! ## Lemmas about the folds inside `handleCommand` and the blob sweep -/

theorem whisperLookup_eq_acc (l : List (String × String)) (v acc : String)
    (h : ∀ p ∈ l, p.2 ≠ v) :
    l.foldl (fun acc p => if p.2 = v then p.1 else acc) acc = acc := by
  induction l generalizing acc with
  | nil => rfl
  | cons p ps ih =>
    have hp : p.2 ≠ v := h p (List.mem_cons_self p ps)
    simp only [List.foldl_cons, if_neg hp]
    exact ih acc (fun q hq => h q (List.mem_cons_of_mem p hq))

theorem string_mk_data (s : String) : String.mk s.data = s := rfl

theorem splitSpaceChars_append_space (acc a b : List Char) (h : ' ' ∉ a) :
    splitSpaceChars acc (a ++ ' ' :: b) = String.mk (acc.reverse ++ a) :: splitSpaceChars [] b := by
  induction a generalizing acc with
  | nil => simp [splitSpaceChars]
  | cons c cs ih =>
    have hc : ¬ c = ' ' := fun hcontra => h (hcontra ▸ List.mem_cons_self c cs)
    have hcs : ' ' ∉ cs := fun hcontra => h (List.mem_cons_of_mem c hcontra)
    have hstep : splitSpaceChars acc ((c :: cs) ++ ' ' :: b) =
        splitSpaceChars (c :: acc) (cs ++ ' ' :: b) := by
      rw [List.cons_append]
      show (if c = ' ' then String.mk acc.reverse :: splitSpaceChars [] (cs ++ ' ' :: b)
        else splitSpaceChars (c :: acc) (cs ++ ' ' :: b)) = _
      rw [if_neg hc]
    rw [hstep, ih (c :: acc) hcs]
    simp [List.reverse_cons, List.append_assoc]

theorem splitSpaceChars_ne_nil (acc l : List Char) : splitSpaceChars acc l ≠ [] := by
  induction l generalizing acc with
  | nil => simp [splitSpaceChars]
  | cons c cs ih =>
    unfold splitSpaceChars
    split
    · simp
    · exact ih (c :: acc)

theorem goJoin_cons (sep x : String) (xs : List String) (h : xs ≠ []) :
    goJoin sep (x :: xs) = x ++ sep ++ goJoin sep xs := by
  cases xs with
  | nil => exact absurd rfl h
  | cons y ys => rfl

theorem goJoin_splitSpaceChars (l acc : List Char) :
    goJoin " " (splitSpaceChars acc l) = String.mk (acc.reverse ++ l) := by
  induction l generalizing acc with
  | nil => simp [splitSpaceChars, goJoin]
  | cons c cs ih =>
    by_cases hc : c = ' '
    · subst hc
      show goJoin " " (splitSpaceChars acc (' ' :: cs)) = _
      unfold splitSpaceChars
      rw [if_pos rfl, goJoin_cons " " _ _ (splitSpaceChars_ne_nil [] cs), ih []]
      show String.mk acc.reverse ++ String.mk [' '] ++ String.mk (List.reverse [] ++ cs) = _
      apply congrArg String.mk
      simp
    · unfold splitSpaceChars
      rw [if_neg hc, ih (c :: acc)]
      apply congrArg String.mk
      simp

theorem goJoin_stringsSplitSpace (s : String) : goJoin " " (stringsSplitSpace s) = s := by
  unfold stringsSplitSpace
  rw [goJoin_splitSpaceChars]
  simp [string_mk_data]

theorem stringsSplitSpace_whisper (toNickname text : String)
    (htn : goContainsChar toNickname ' ' = false) :
    stringsSplitSpace (";whisper " ++ toNickname ++ " " ++ text) =
      ";whisper" :: toNickname :: stringsSplitSpace text := by
  have htn' : ' ' ∉ toNickname.data := by
    rw [goContainsChar] at htn
    simpa using htn
  have hd : (";whisper " ++ toNickname ++ " " ++ text).data =
      (";whisper" : String).data ++ ' ' :: (toNickname.data ++ ' ' :: text.data) := by
    simp [string_data_append, List.append_assoc]
  unfold stringsSplitSpace
  rw [hd, splitSpaceChars_append_space [] _ _ (by decide),
    splitSpaceChars_append_space [] _ _ htn']
  simp [string_mk_data]

theorem handleCommand_whisper_eval (st : CmdState) (sessionID toNickname message : String)
    (rest : List String)
    (hsplit : stringsSplitSpace message = ";whisper" :: toNickname :: rest) :
    handleCommand st sessionID message =
      some (st,
        sendPrivateMessage st.clients
          (st.nicknames.foldl (fun acc p => if p.2 = toNickname then p.1 else acc) "")
          ("(whisper to ~" ++ toNickname ++ ") [" ++ getNickname st.nicknames sessionID ++
            "]: " ++ goJoin " " rest) ++
        sendPrivateMessage st.clients sessionID
          ("(whisper to ~" ++ toNickname ++ ") [" ++ getNickname st.nicknames sessionID ++
            "]: " ++ goJoin " " rest)) := by
  unfold handleCommand
  rw [hsplit]
  rfl

theorem members_entry_contains (acc k v : String) :
    strContainsSub (acc ++ " [" ++ k ++ "] (" ++ v ++ ")")
      ("[" ++ k ++ "] (" ++ v ++ ")") = true := by
  unfold strContainsSub
  simp only [string_data_append, List.append_assoc]
  apply listContainsSub_append_right
  simp only [List.cons_append, List.nil_append]
  exact listContainsSub_cons _ _ _ (listContainsSub_refl _)

theorem membersFold_preserves (l : List (String × String)) (acc pat : String)
    (h : strContainsSub acc pat = true) :
    strContainsSub
      (l.foldl (fun members p => members ++ " [" ++ p.1 ++ "] (" ++ p.2 ++ ")") acc) pat = true := by
  induction l generalizing acc with
  | nil => simpa using h
  | cons p ps ih =>
    simp only [List.foldl_cons]
    exact ih _ (strContainsSub_append_left _ _ _ (strContainsSub_append_left _ _ _
      (strContainsSub_append_left _ _ _ (strContainsSub_append_left _ _ _
        (strContainsSub_append_left _ _ _ h)))))

theorem membersFold_contains (l : List (String × String)) (acc k v : String)
    (h : (k, v) ∈ l) :
    strContainsSub
      (l.foldl (fun members p => members ++ " [" ++ p.1 ++ "] (" ++ p.2 ++ ")") acc)
      ("[" ++ k ++ "] (" ++ v ++ ")") = true := by
  induction l generalizing acc with
  | nil => cases h
  | cons p ps ih =>
    rcases List.mem_cons.mp h with hp | hp
    · simp only [List.foldl_cons, ← hp]
      exact membersFold_preserves ps _ _ (members_entry_contains acc k v)
    · simp only [List.foldl_cons]
      exact ih _ hp

theorem membersRender_contains (l : List (String × String)) (k v : String) (h : (k, v) ∈ l) :
    strContainsSub (membersRender l) ("[" ++ k ++ "] (" ++ v ++ ")") = true :=
  membersFold_contains l "" k v h

theorem sweepFold_preserves_none (l : List (String × Int)) (now : Int) (st : BlobState)
    (id : String) (h1 : mapLookup st.imageStore id = none)
    (h2 : mapLookup st.imageExpiry id = none) :
    mapLookup (l.foldl (sweepStep now) st).imageStore id = none ∧
    mapLookup (l.foldl (sweepStep now) st).imageExpiry id = none := by
  induction l generalizing st with
  | nil => exact ⟨h1, h2⟩
  | cons e es ih =>
    simp only [List.foldl_cons]
    apply ih
    · unfold sweepStep
      split
      · exact mapLookup_erase_none _ _ _ h1
      · exact h1
    · unfold sweepStep
      split
      · exact mapLookup_erase_none _ _ _ h2
      · exact h2

theorem sweepFold_removes (l : List (String × Int)) (now : Int) (st : BlobState)
    (id : String) (e : Int) (hmem : (id, e) ∈ l) (he : now > e) :
    mapLookup (l.foldl (sweepStep now) st).imageStore id = none ∧
    mapLookup (l.foldl (sweepStep now) st).imageExpiry id = none := by
  induction l generalizing st with
  | nil => cases hmem
  | cons p ps ih =>
    simp only [List.foldl_cons]
    rcases List.mem_cons.mp hmem with hp | hp
    · have hstep : sweepStep now st p =
        { imageStore := mapErase st.imageStore id, imageExpiry := mapErase st.imageExpiry id } := by
        rw [← hp]
        unfold sweepStep
        simp [he]
      rw [hstep]
      exact sweepFold_preserves_none ps now _ id (mapLookup_erase_self _ _)
        (mapLookup_erase_self _ _)
    · exact ih _ hp

theorem sweepFold_retains (l : List (String × Int)) (now : Int) (st : BlobState)
    (id : String) (h : ∀ p ∈ l, p.1 = id → now ≤ p.2) :
    mapLookup (l.foldl (sweepStep now) st).imageStore id = mapLookup st.imageStore id ∧
    mapLookup (l.foldl (sweepStep now) st).imageExpiry id = mapLookup st.imageExpiry id := by
  induction l generalizing st with
  | nil => exact ⟨rfl, rfl⟩
  | cons p ps ih =>
    simp only [List.foldl_cons]
    have htail : ∀ q ∈ ps, q.1 = id → now ≤ q.2 :=
      fun q hq => h q (List.mem_cons_of_mem p hq)
    by_cases hc : now > p.2
    · have hne : id ≠ p.1 := by
        intro hcontra
        exact absurd (h p (List.mem_cons_self p ps) hcontra.symm) (not_le.mpr hc)
      have hstep : sweepStep now st p =
          { imageStore := mapErase st.imageStore p.1, imageExpiry := mapErase st.imageExpiry p.1 } := by
        unfold sweepStep
        simp [hc]
      rw [hstep]
      rcases ih { imageStore := mapErase st.imageStore p.1,
                  imageExpiry := mapErase st.imageExpiry p.1 } htail with ⟨ha, hb⟩
      refine ⟨?_, ?_⟩
      · rw [ha]; exact mapLookup_erase_ne _ _ _ hne
      · rw [hb]; exact mapLookup_erase_ne _ _ _ hne
    · have hstep : sweepStep now st p = st := by
        unfold sweepStep
        simp [hc]
      rw [hstep]
      exact ih st htail

theorem broadcast_mem_snd (clients : List (String × Nat)) (t : String) (d : Nat × String)
    (h : d ∈ broadcastMessage clients t) : d.2 = t := by
  rcases List.mem_map.mp h with ⟨p, _, rfl⟩
  rfl

theorem broadcast_mem_of_client (clients : List (String × Nat)) (t : String)
    (id : String) (ch : Nat) (h : (id, ch) ∈ clients) : (ch, t) ∈ broadcastMessage clients t :=
  List.mem_map.mpr ⟨(id, ch), h, rfl⟩

/-! ## Claim C1 (rate limiter) -/

/-- Counterexample to claim C1: for a single session submitting at
t = 0, 500, 1000, 1500, 2000, 2500 ms (window 2000 ms, threshold 5), the
admit decisions are not Allow followed by five Throttles — the second call is
still allowed because the strike counter has only reached 1. -/
theorem rateLimiter_claim_counterexample :
    (admitRun ⟨[], []⟩ "s" [0, 500, 1000, 1500, 2000, 2500]).1 ≠
      [Decision.Allow, Decision.Throttle, Decision.Throttle, Decision.Throttle,
       Decision.Throttle, Decision.Throttle] := by
  decide

/-- Claim C1, amended: for the submission times t = 0, 500, ..., 2500 ms the
decisions are five Allows followed by one Throttle (the counter, incremented
on every within-window call, first reaches the threshold 5 on the sixth
call); the strike counter increments on every within-window call and is never
reset while the sender stays inside the window; and a Throttle decision
leaves the session's last-message timestamp unchanged. -/
theorem rateLimiter_sequence_amended :
    (admitRun ⟨[], []⟩ "s" [0, 500, 1000, 1500, 2000, 2500]).1 =
      [Decision.Allow, Decision.Allow, Decision.Allow, Decision.Allow, Decision.Allow,
       Decision.Throttle] ∧
    (∀ st id now lastTime,
       mapLookup st.lastMessageTime id = some lastTime → now - lastTime < 2000 →
       mapGetD (rateLimitAdmit st id now).2.spamCount id 0 = mapGetD st.spamCount id 0 + 1) ∧
    (∀ st id now, (rateLimitAdmit st id now).1 = Decision.Throttle →
       (rateLimitAdmit st id now).2.lastMessageTime = st.lastMessageTime) := by
  refine ⟨by decide, ?_, ?_⟩
  · intro st id now lastTime h1 h2
    unfold rateLimitAdmit
    rw [h1]
    simp only [if_pos h2]
    split
    · exact mapGetD_insert_self _ _ _ _
    · exact mapGetD_insert_self _ _ _ _
  · intro st id now
    unfold rateLimitAdmit
    split
    · split
      · dsimp only
        split
        · intro _; rfl
        · intro h; cases h
      · intro h; cases h
    · intro h; cases h

/-- Witness for `rateLimiter_sequence_amended`: a concrete within-window call
increments the counter, and a concrete throttled call leaves the timestamp
alone. -/
theorem rateLimiter_sequence_amended_witness :
    mapGetD (rateLimitAdmit ⟨[("s", 2000)], [("s", 3)]⟩ "s" 2500).2.spamCount "s" 0 =
      mapGetD [("s", 3)] "s" 0 + 1 ∧
    (rateLimitAdmit ⟨[("s", 2000)], [("s", 4)]⟩ "s" 2500).2.lastMessageTime = [("s", 2000)] :=
  ⟨rateLimiter_sequence_amended.2.1 ⟨[("s", 2000)], [("s", 3)]⟩ "s" 2500 2000 (by decide)
      (by decide),
   rateLimiter_sequence_amended.2.2 ⟨[("s", 2000)], [("s", 4)]⟩ "s" 2500 (by decide)⟩

/-! ## Claim C2 (`;whisper` with too few tokens) -/

/-- Claim C2 fails on the code: for any state and session, the command message
`;whisper` (no arguments) makes `handleCommand` index `splitted[1]` out of
range — a Go runtime panic (modelled as `none`) — instead of sending a
usage-hint reply. -/
theorem whisper_missing_args_panics (st : CmdState) (sessionID : String) :
    handleCommand st sessionID ";whisper" = none := rfl

/-! ## Claim C3 (re-registration of the push stream) -/

/-- Claim C3 checked on the code: starting from the empty registry, session
"A" registers twice.  The first registration mints channel 0, the second
channel 1.  After the second, exactly one registration exists for "A" (the
newer channel 1) and broadcasts reach only channel 1 — but channel 0 has not
been closed (the `close` sits in the first handler's deferred teardown, which
has not run), and if that deferred teardown does run, it deletes "A"'s new
registration, leaving the reconnected session with no channel at all. -/
theorem events_reconnect_first_channel_not_closed :
    (eventsRegister ⟨[], 0, []⟩ "A").2 = 0 ∧
    (eventsRegister (eventsRegister ⟨[], 0, []⟩ "A").1 "A").2 = 1 ∧
    (eventsRegister (eventsRegister ⟨[], 0, []⟩ "A").1 "A").1.clients = [("A", 1)] ∧
    (eventsRegister (eventsRegister ⟨[], 0, []⟩ "A").1 "A").1.closed = [] ∧
    broadcastMessage (eventsRegister (eventsRegister ⟨[], 0, []⟩ "A").1 "A").1.clients "m" =
      [(1, "m")] ∧
    (eventsCleanup (eventsRegister (eventsRegister ⟨[], 0, []⟩ "A").1 "A").1 "A" 0).clients =
      [] := by
  decide

/-! ## Claim C4 (nickname uniqueness) -/

/-- Counterexample to claim C4: with session "A" holding nickname "alice",
session "B" setting its nickname to "alice" succeeds — `handleSetNickname`
performs no uniqueness check, so no NicknameError is produced and both
sessions end up holding "alice". -/
theorem setNickname_duplicate_accepted :
    (handleSetNickname [("A", "alice")] "B" "alice").2 =
      SetNickResult.ok "Nickname set to alice for session B"
        "{app}: client B (no previous nicknames) changed nickname to [alice]" ∧
    (handleSetNickname [("A", "alice")] "B" "alice").1 = [("A", "alice"), ("B", "alice")] := by
  decide

/-- Claim C4, amended: if active session A holds nickname N, then setting
session B's nickname to N (B distinct from A, N passing the empty/whitespace
check) succeeds rather than failing with a NicknameError — the duplicate is
recorded for B — while A's recorded nickname is indeed unchanged by the
attempt. -/
theorem setNickname_duplicate_amended (nicknames : List (String × String)) (A B nick : String)
    (hA : mapLookup nicknames A = some nick) (hAB : A ≠ B)
    (hvalid : (nick == "" || goContainsChar nick ' ') = false) :
    (∃ resp btext, (handleSetNickname nicknames B nick).2 = SetNickResult.ok resp btext) ∧
    mapLookup (handleSetNickname nicknames B nick).1 A = some nick ∧
    mapLookup (handleSetNickname nicknames B nick).1 B = some nick := by
  unfold handleSetNickname
  simp only [hvalid, Bool.false_eq_true, if_false]
  refine ⟨⟨_, _, rfl⟩, ?_, ?_⟩
  · rw [mapLookup_insert_ne nicknames B A nick hAB]
    exact hA
  · exact mapLookup_insert_self nicknames B nick

/-- Witness for `setNickname_duplicate_amended` at a concrete state. -/
theorem setNickname_duplicate_amended_witness :
    (∃ resp btext, (handleSetNickname [("A", "alice")] "B" "alice").2 =
       SetNickResult.ok resp btext) ∧
    mapLookup (handleSetNickname [("A", "alice")] "B" "alice").1 "A" = some "alice" ∧
    mapLookup (handleSetNickname [("A", "alice")] "B" "alice").1 "B" = some "alice" :=
  setNickname_duplicate_amended [("A", "alice")] "A" "B" "alice" (by decide) (by decide)
    (by decide)

/-! ## Claim C5 (entropy failure during id generation) -/

/-- Counterexample to claim C5: when the secure random source fails,
`generateRandomId` — the generator every handler actually calls — does not
fall back to a timestamp id; it broadcasts a PANIC notice and panics. -/
theorem generateRandomId_entropy_failure_panics :
    generateRandomId 1700000000000 (Except.error "entropy read failed") =
      IdResult.panicked "{app}: PANIC, shutting down"
        "unable to generate random bytes: entropy read failed" := rfl

/-- Claim C5, amended: on entropy failure the unused `generateSessionID` does
return the timestamp-derived fallback id, but `generateRandomId` — the id
generator used by `getOrCreateSession` and the image upload path — broadcasts
a PANIC notice and panics instead of returning an id, and the panic
propagates out of `getOrCreateSession`.  On entropy success
`generateRandomId` returns the timestamp-and-hex id. -/
theorem idGeneration_entropy_failure_amended :
    (∀ t e, generateSessionID t (Except.error e) = toString t) ∧
    (∀ t e, generateRandomId t (Except.error e) =
       IdResult.panicked "{app}: PANIC, shutting down"
         ("unable to generate random bytes: " ++ e)) ∧
    (∀ t e, (getOrCreateSession none t (Except.error e)).1 =
       IdResult.panicked "{app}: PANIC, shutting down"
         ("unable to generate random bytes: " ++ e)) ∧
    (∀ t bs, generateRandomId t (Except.ok bs) =
       IdResult.ok (toString t ++ "-" ++ bytesHex bs)) :=
  ⟨fun _ _ => rfl, fun _ _ => rfl, fun _ _ => rfl, fun _ _ => rfl⟩

/-! ## Claim C6 (blob sweep boundary) -/

/-- Counterexample to claim C6: a record whose expiry instant equals `now`
exactly is not removed by the sweep — `time.After` is strict — so its bytes
and expiry entry survive and a get still finds it. -/
theorem sweep_boundary_counterexample :
    handleImageLookup (imageCleanupSweep ⟨[("img", [7])], [("img", 5)]⟩ 5) "img" = some [7] ∧
    mapLookup (imageCleanupSweep ⟨[("img", [7])], [("img", 5)]⟩ 5).imageExpiry "img" = some 5 ∧
    ¬ handleImageLookup (imageCleanupSweep ⟨[("img", [7])], [("img", 5)]⟩ 5) "img" = none := by
  decide

/-- Claim C6, amended: `sweep(now)` removes every blob record whose expiry is
strictly before `now`, deleting the byte payload and the expiry entry
together, and a get of a swept id afterwards returns absent; but a record
whose expiry equals `now` exactly is retained untouched until a later sweep. -/
theorem sweep_amended (st : BlobState) (now : Int) :
    (∀ id e, (id, e) ∈ st.imageExpiry → e < now →
       handleImageLookup (imageCleanupSweep st now) id = none ∧
       mapLookup (imageCleanupSweep st now).imageExpiry id = none) ∧
    (∀ id, (∀ p ∈ st.imageExpiry, p.1 = id → now ≤ p.2) →
       handleImageLookup (imageCleanupSweep st now) id = handleImageLookup st id ∧
       mapLookup (imageCleanupSweep st now).imageExpiry id = mapLookup st.imageExpiry id) := by
  constructor
  · intro id e hmem he
    exact sweepFold_removes st.imageExpiry now st id e hmem he
  · intro id h
    exact sweepFold_retains st.imageExpiry now st id h

/-- Witness for `sweep_amended`: sweeping at t = 5 removes the record that
expired at 1 (bytes and expiry together, get turns absent) and leaves the
record expiring exactly at 5 untouched. -/
theorem sweep_amended_witness :
    (handleImageLookup (imageCleanupSweep ⟨[("a", [1]), ("b", [2])], [("a", 1), ("b", 5)]⟩ 5)
       "a" = none ∧
     mapLookup (imageCleanupSweep ⟨[("a", [1]), ("b", [2])],
       [("a", 1), ("b", 5)]⟩ 5).imageExpiry "a" = none) ∧
    (handleImageLookup (imageCleanupSweep ⟨[("a", [1]), ("b", [2])], [("a", 1), ("b", 5)]⟩ 5)
       "b" = handleImageLookup ⟨[("a", [1]), ("b", [2])], [("a", 1), ("b", 5)]⟩ "b" ∧
     mapLookup (imageCleanupSweep ⟨[("a", [1]), ("b", [2])],
       [("a", 1), ("b", 5)]⟩ 5).imageExpiry "b" = mapLookup [("a", 1), ("b", 5)] "b") :=
  ⟨(sweep_amended ⟨[("a", [1]), ("b", [2])], [("a", 1), ("b", 5)]⟩ 5).1 "a" 1 (by decide)
      (by decide),
   (sweep_amended ⟨[("a", [1]), ("b", [2])], [("a", 1), ("b", 5)]⟩ 5).2 "b" (by decide)⟩

/-! ## Claim C7 (whisper to an unknown nickname) -/

/-- Counterexample to claim C7: whispering to the absent nickname "bob"
delivers the formatted whisper echo to the sender — a reply that does not
contain "not found" anywhere. -/
theorem whisper_not_found_counterexample :
    handleCommand ⟨[("X", "xena")], [], [("X", 0), ("Y", 1)]⟩ "X" ";whisper bob hi" =
      some (⟨[("X", "xena")], [], [("X", 0), ("Y", 1)]⟩,
        [(0, "@private (whisper to ~bob) [xena]: hi")]) ∧
    strContainsSub "@private (whisper to ~bob) [xena]: hi" "not found" = false := by
  decide

/-- Claim C7, amended: for every `;whisper <nickname> <text...>` whose target
nickname (a single space-free token) is held by no active session, the target
lookup yields the empty session id, the unicast to it delivers nothing (no
session is registered under the empty id), and the only delivery is the
formatted whisper echo to the sender — not a "not found" reply. -/
theorem whisper_unknown_target_amended (st : CmdState) (sessionID toNickname text : String)
    (ch : Nat) (htn : goContainsChar toNickname ' ' = false)
    (hno : ∀ p ∈ st.nicknames, p.2 ≠ toNickname)
    (hempty : mapLookup st.clients "" = none)
    (hs : mapLookup st.clients sessionID = some ch) :
    handleCommand st sessionID (";whisper " ++ toNickname ++ " " ++ text) =
      some (st, [(ch, "@private " ++ ("(whisper to ~" ++ toNickname ++ ") [" ++
        getNickname st.nicknames sessionID ++ "]: " ++ text))]) := by
  rw [handleCommand_whisper_eval st sessionID toNickname _ (stringsSplitSpace text)
      (stringsSplitSpace_whisper toNickname text htn),
    whisperLookup_eq_acc st.nicknames toNickname "" hno,
    goJoin_stringsSplitSpace text]
  simp [sendPrivateMessage, hempty, hs]

/-- Witness for `whisper_unknown_target_amended` at a concrete state with a
second connected session that receives nothing. -/
theorem whisper_unknown_target_amended_witness :
    handleCommand ⟨[("X", "xena")], [], [("X", 0), ("Y", 1)]⟩ "X"
        (";whisper " ++ "bob" ++ " " ++ "hi") =
      some (⟨[("X", "xena")], [], [("X", 0), ("Y", 1)]⟩,
        [(0, "@private " ++ ("(whisper to ~" ++ "bob" ++ ") [" ++
          getNickname [("X", "xena")] "X" ++ "]: " ++ "hi"))]) :=
  whisper_unknown_target_amended ⟨[("X", "xena")], [], [("X", 0), ("Y", 1)]⟩ "X" "bob" "hi" 0
    (by decide) (by decide) (by decide) (by decide)

/-! ## Claim C8 (the `;members` entry format) -/

/-- Counterexample to claim C8: with one session "s1" holding nickname
"alice", the `;members` reply renders the entry as "[s1] (alice)" — session
id in brackets, nickname in parentheses — so the reply does not contain
"[alice]". -/
theorem members_format_counterexample :
    handleCommand ⟨[("s1", "alice")], [], [("s1", 0)]⟩ "s1" ";members" =
      some (⟨[("s1", "alice")], [], [("s1", 0)]⟩,
        [(0, "@private {app}: Online members [s1] (alice)")]) ∧
    strContainsSub "@private {app}: Online members [s1] (alice)" "[alice]" = false := by
  decide

/-- Claim C8, amended: the `;members` command replies to the requesting
session with one entry per recorded session rendered as "[id] (nickname)" —
the session id in square brackets and the nickname in parentheses (the
arguments of the claimed format are swapped) — so the reply for a session
holding nickname "alice" under id `k` contains "[k] (alice)", not "[alice]". -/
theorem members_reply_amended (st : CmdState) (sessionID k v : String) (ch : Nat)
    (hs : mapLookup st.clients sessionID = some ch) (hm : (k, v) ∈ st.nicknames) :
    handleCommand st sessionID ";members" =
      some (st, [(ch, "@private " ++ ("{app}: Online members" ++ membersRender st.nicknames))]) ∧
    strContainsSub ("@private " ++ ("{app}: Online members" ++ membersRender st.nicknames))
      ("[" ++ k ++ "] (" ++ v ++ ")") = true := by
  constructor
  · have h0 : handleCommand st sessionID ";members" =
        some (st, sendPrivateMessage st.clients sessionID
          ("{app}: Online members" ++ membersRender st.nicknames)) := rfl
    rw [h0]
    simp [sendPrivateMessage, hs]
  · exact strContainsSub_append_right _ _ _ (strContainsSub_append_right _ _ _
      (membersRender_contains st.nicknames k v hm))

/-- Witness for `members_reply_amended`: the fresh session "s1" that set
nickname "alice" sees "[s1] (alice)" in its own reply. -/
theorem members_reply_amended_witness :
    handleCommand ⟨[("s1", "alice")], [], [("s1", 0)]⟩ "s1" ";members" =
      some (⟨[("s1", "alice")], [], [("s1", 0)]⟩,
        [(0, "@private " ++ ("{app}: Online members" ++ membersRender [("s1", "alice")]))]) ∧
    strContainsSub ("@private " ++ ("{app}: Online members" ++ membersRender [("s1", "alice")]))
      ("[" ++ "s1" ++ "] (" ++ "alice" ++ ")") = true :=
  members_reply_amended ⟨[("s1", "alice")], [], [("s1", 0)]⟩ "s1" "s1" "alice" 0 (by decide)
    (by decide)

/-! ## Claim C9 (session resolution) -/

/-- Counterexample to claim C9: session resolution is not failure-free — with
no cookie and a failing entropy source, `getOrCreateSession` propagates the
panic of `generateRandomId` instead of returning a session id. -/
theorem getOrCreateSession_failure_counterexample :
    (getOrCreateSession none 0 (Except.error "entropy read failed")).1 =
      IdResult.panicked "{app}: PANIC, shutting down"
        "unable to generate random bytes: entropy read failed" := rfl

/-- Claim C9, amended: given a token that denotes a known session, resolution
returns that session's id; given an absent token and a working entropy
source, it mints a fresh random id and issues it as the session cookie.  No
server-side record is written for the new session: the default nickname
"anonymous" and the empty color arise lazily as lookup defaults.  Resolution
can fail: if the secure random source fails while minting, the panic of
`generateRandomId` propagates. -/
theorem getOrCreateSession_amended :
    (∀ v t e, getOrCreateSession (some v) t e = (IdResult.ok v, false)) ∧
    (∀ t bs, getOrCreateSession none t (Except.ok bs) =
       (IdResult.ok (toString t ++ "-" ++ bytesHex bs), true)) ∧
    (∀ nicknames id, mapLookup nicknames id = none → getNickname nicknames id = "anonymous") ∧
    (∀ (colors : List (String × String)) id, mapLookup colors id = none →
       mapGetD colors id "" = "") := by
  refine ⟨fun _ _ _ => rfl, fun _ _ => rfl, ?_, ?_⟩
  · intro nicknames id h
    unfold getNickname
    rw [h]
  · intro colors id h
    unfold mapGetD
    rw [h]
    rfl

/-- Witness for `getOrCreateSession_amended`: a freshly minted id has the
default nickname and color without any record having been written. -/
theorem getOrCreateSession_amended_witness :
    getNickname [] "1700000000000-00ff10ab" = "anonymous" ∧
    mapGetD ([] : List (String × String)) "1700000000000-00ff10ab" "" = "" :=
  ⟨getOrCreateSession_amended.2.2.1 [] "1700000000000-00ff10ab" rfl,
   getOrCreateSession_amended.2.2.2 [] "1700000000000-00ff10ab" rfl⟩

/-! ## Claim C10 (broadcasts disclose the session id) -/

/-- Claim C10: every broadcast announcing a nickname change, a join, or a
leave embeds the acting session's full opaque session id in the message text,
and that text is delivered to every registered client — so each participant's
unguessable session token is disclosed to every connected client. -/
theorem broadcasts_embed_session_id (nicknames : List (String × String))
    (clients : List (String × Nat)) (sessionID nickname id : String) (ch : Nat)
    (hmem : (id, ch) ∈ clients) :
    (∀ d ∈ handleJoin nicknames clients sessionID, strContainsSub d.2 sessionID = true) ∧
    (ch, "{app}: " ++ sessionID ++ " ([" ++ getNickname nicknames sessionID ++
       "]) has joined the room") ∈ handleJoin nicknames clients sessionID ∧
    (∀ d ∈ handleLeave nicknames clients sessionID, strContainsSub d.2 sessionID = true) ∧
    (ch, "{app}: [" ++ getNickname nicknames sessionID ++ "] (" ++ sessionID ++
       ") has left the room") ∈ handleLeave nicknames clients sessionID ∧
    (∀ resp btext, (handleSetNickname nicknames sessionID nickname).2 =
        SetNickResult.ok resp btext →
       strContainsSub btext sessionID = true ∧ (ch, btext) ∈ broadcastMessage clients btext) := by
  have hjoin : strContainsSub ("{app}: " ++ sessionID ++ " ([" ++
      getNickname nicknames sessionID ++ "]) has joined the room") sessionID = true := by
    apply strContainsSub_append_left
    apply strContainsSub_append_left
    apply strContainsSub_append_left
    exact strContainsSub_append_right _ _ _ (strContainsSub_self _)
  have hleave : strContainsSub ("{app}: [" ++ getNickname nicknames sessionID ++ "] (" ++
      sessionID ++ ") has left the room") sessionID = true := by
    apply strContainsSub_append_left
    exact strContainsSub_append_right _ _ _ (strContainsSub_self _)
  refine ⟨?_, ?_, ?_, ?_, ?_⟩
  · intro d hd
    rw [broadcast_mem_snd clients _ d hd]
    exact hjoin
  · exact broadcast_mem_of_client clients _ id ch hmem
  · intro d hd
    rw [broadcast_mem_snd clients _ d hd]
    exact hleave
  · exact broadcast_mem_of_client clients _ id ch hmem
  · intro resp btext hok
    unfold handleSetNickname at hok
    split at hok
    · simp at hok
    · dsimp only at hok
      injection hok with h1 h2
      subst h2
      constructor
      · apply strContainsSub_append_left
        apply strContainsSub_append_left
        apply strContainsSub_append_left
        apply strContainsSub_append_left
        apply strContainsSub_append_left
        exact strContainsSub_append_right _ _ _ (strContainsSub_self _)
      · exact broadcast_mem_of_client clients _ id ch hmem

/-- Witness for `broadcasts_embed_session_id` at a concrete registry. -/
theorem broadcasts_embed_session_id_witness :
    (∀ d ∈ handleJoin [("S", "nick")] [("S", 3)] "S", strContainsSub d.2 "S" = true) ∧
    (3, "{app}: " ++ "S" ++ " ([" ++ getNickname [("S", "nick")] "S" ++
       "]) has joined the room") ∈ handleJoin [("S", "nick")] [("S", 3)] "S" ∧
    (∀ d ∈ handleLeave [("S", "nick")] [("S", 3)] "S", strContainsSub d.2 "S" = true) ∧
    (3, "{app}: [" ++ getNickname [("S", "nick")] "S" ++ "] (" ++ "S" ++
       ") has left the room") ∈ handleLeave [("S", "nick")] [("S", 3)] "S" ∧
    (∀ resp btext, (handleSetNickname [("S", "nick")] "S" "newnick").2 =
        SetNickResult.ok resp btext →
       strContainsSub btext "S" = true ∧ (3, btext) ∈ broadcastMessage [("S", 3)] btext) :=
  broadcasts_embed_session_id [("S", "nick")] [("S", 3)] "S" "newnick" "S" 3 (by decide)

end Alantern
